import Mathlib

/-!
Verification of the sandbox bootstrap and process-lifecycle orchestrator of
the vibecode repository.

The development shallowly embeds the relevant TypeScript modules:

* `src/features/webcontainers/service/processManager.ts` — the shared process
  registry (`ProcessManager`) and the project analyzer (`analyzeProject`,
  `detectPackageManager`, `getPackageManagerFiles`, `getInstallCommand`).
* `src/features/webcontainers/components/webcontainer-preveiw.tsx` — the
  bootstrap orchestrator (`setupContainer`, the server-ready effect, the
  force-resetup effect, the install retry loop, the start-process port
  detection).
* the terminal tab manager (`TerminalTabs` with `MAX_TERMINALS`,
  `addTerminal`, `closeTerminal`).

Effectful JavaScript (Map mutation, React state setters, spawned processes)
is modelled by explicit state passing; calls into the opaque sandbox runtime
(process spawning, filesystem reads, JSON parsing) are modelled by oracles
supplied as parameters, and observable side effects (process termination
attempts, subscriber notification, terminal interrupts, spawns and waits)
are recorded in explicit event traces.
-/

namespace Vibecode

/-! ### Process registry — `ProcessManager` in processManager.ts

The JS class keeps `processes : Map<string, ProcessInfo>` and a listener
set.  We model the map as an insertion-ordered association list of
`ProcInfo` (ids are the keys), and subscriber notification as a `notify`
event in the trace.  The opaque `WebContainerProcess` handle is reduced to
the one bit the registry can observe: whether its `kill()` call throws
(`killThrows`), which the source swallows. -/

inductive RegEvent where
  | termAttempt (id : String)
  | notify
deriving DecidableEq, Repr

structure ProcInfo where
  id : String
  killThrows : Bool
  command : String
  port : Option Nat
  startedAt : Nat
deriving DecidableEq, Repr

structure RegistryState where
  processes : List ProcInfo
  nextId : Nat
deriving DecidableEq, Repr

def RegistryState.initial : RegistryState := { processes := [], nextId := 1 }

/-- Embeds `register(process, command, port?)`: store a fresh entry under id
`proc-<nextId>`, bump the counter, notify. -/
def register (killThrows : Bool) (command : String) (port : Option Nat)
    (now : Nat) (s : RegistryState) : String × RegistryState × List RegEvent :=
  let id := "proc-" ++ toString s.nextId
  (id,
   { processes := s.processes ++ [{ id := id, killThrows := killThrows,
                                    command := command, port := port, startedAt := now }],
     nextId := s.nextId + 1 },
   [RegEvent.notify])

/-- Lookup `this.processes.get(id)` of the JS map. -/
def findProc (s : RegistryState) (id : String) : Option ProcInfo :=
  s.processes.find? (fun p => p.id == id)

/-- Embeds `getAll()`: `Array.from(this.processes.values())`. -/
def getAll (s : RegistryState) : List ProcInfo :=
  s.processes

/-- Embeds `kill(id)`: look the entry up; if absent return `false` unchanged; if
present, attempt termination (errors swallowed), delete the entry,
notify, return `true`. -/
def kill (id : String) (s : RegistryState) : Bool × RegistryState × List RegEvent :=
  match findProc s id with
  | none => (false, s, [])
  | some _ =>
      (true,
       { s with processes := s.processes.eraseP (fun p => p.id == id) },
       [RegEvent.termAttempt id, RegEvent.notify])

/-- Embeds `killByPort(port)`: terminate and delete every entry whose `port` equals
the argument; notify only when something matched. -/
def killByPort (port : Nat) (s : RegistryState) : Bool × RegistryState × List RegEvent :=
  let victims := s.processes.filter (fun p => p.port == some port)
  let keep := s.processes.filter (fun p => !(p.port == some port))
  let killed := !victims.isEmpty
  (killed,
   { s with processes := keep },
   victims.map (fun p => RegEvent.termAttempt p.id)
     ++ if killed then [RegEvent.notify] else [])

/-- Embeds `killAll()`: attempt to terminate every entry, clear the table
unconditionally, notify once. -/
def killAll (s : RegistryState) : RegistryState × List RegEvent :=
  ({ s with processes := [] },
   s.processes.map (fun p => RegEvent.termAttempt p.id) ++ [RegEvent.notify])

/-- Embeds `unregister(id)`: delete without attempting termination, notify. -/
def unregister (id : String) (s : RegistryState) : RegistryState × List RegEvent :=
  ({ s with processes := s.processes.eraseP (fun p => p.id == id) },
   [RegEvent.notify])

/-! ### Port detection — the start-process output scanner in
webcontainer-preveiw.tsx

The orchestrator pipes the dev-server output through
`data.match(/(?:port|localhost:|127\.0\.0\.1:|:::)(\d{4,5})/i)` and, on a
match, writes `parseInt(match[1], 10)` into the registry entry found via
`getAll().find(p => p.id === procId)` when that entry has no port yet.  We
implement the regex search directly: leftmost match, alternatives tried in
order, case-insensitive literals, greedy 4-to-5-digit capture.  (The four
alternatives start with pairwise distinct characters, so ordered trying at
each position is exact.) -/

def isDigitCh (c : Char) : Bool := decide ('0' ≤ c) && decide (c ≤ '9')

def lowerEq (a b : Char) : Bool := a.toLower == b.toLower

/-- Match a literal (case-insensitively) at the head of the input, returning
the remaining input on success. -/
def litMatch : List Char → List Char → Option (List Char)
  | [], cs => some cs
  | _ :: _, [] => none
  | l :: ls, c :: cs => if lowerEq l c then litMatch ls cs else none

/-- Longest digit run at the head of the input. -/
def takeDigits : List Char → List Char
  | [] => []
  | c :: cs => if isDigitCh c then c :: takeDigits cs else []

/-- Value of a digit string, as `parseInt(_, 10)` computes it. -/
def digitsVal (ds : List Char) : Nat :=
  ds.foldl (fun n c => 10 * n + (c.toNat - '0'.toNat)) 0

/-- The alternatives of the port regex, in source order. -/
def portAlternatives : List (List Char) :=
  ["port".toList, "localhost:".toList, "127.0.0.1:".toList, ":::".toList]

/-- Try the regex alternatives at one position: the first literal that
matches and is followed by at least 4 digits yields the greedy 4-5 digit
capture. -/
def tryAlternativesAt : List (List Char) → List Char → Option Nat
  | [], _ => none
  | alt :: alts, cs =>
      match litMatch alt cs with
      | some rest =>
          let ds := (takeDigits rest).take 5
          if 4 ≤ ds.length then some (digitsVal ds) else tryAlternativesAt alts cs
      | none => tryAlternativesAt alts cs

/-- Leftmost match of the port pattern in an output chunk. -/
def findPort : List Char → Option Nat
  | [] => none
  | c :: cs =>
      match tryAlternativesAt portAlternatives (c :: cs) with
      | some n => some n
      | none => findPort cs

/-- Set the port of the first entry with the given id — the in-place
mutation `info.port = port` of the object found in `getAll()`. -/
def setPortFirst : List ProcInfo → String → Nat → List ProcInfo
  | [], _, _ => []
  | p :: ps, pid, port =>
      if p.id == pid then { p with port := some port } :: ps
      else p :: setPortFirst ps pid port

/-- The write-callback of the start process: on a port match, if the
registry still tracks `procId` and that entry has no port, record the
detected port on the entry. -/
def handleStartOutput (procId : String) (chunk : String) (s : RegistryState) :
    RegistryState :=
  match findPort chunk.toList with
  | none => s
  | some port =>
      match (getAll s).find? (fun p => p.id == procId) with
      | none => s
      | some info =>
          if info.port = none then
            { s with processes := setPortFirst s.processes procId port }
          else s

/-! ### Project analyzer — `analyzeProject` and helpers in processManager.ts

The analyzer reads the sandbox filesystem (`fs.readdir('/')`,
`fs.readFile('package.json', 'utf-8')`) and runs `JSON.parse` on the
manifest.  The filesystem is modelled as oracles returning `Except` (an
`error` models the call throwing); `JSON.parse` composed with the two field
accesses the source performs (`pkg.scripts` and its members) is modelled as
an oracle `parsePkg : String → Option PkgJson`, `none` modelling a parse
exception.  JavaScript truthiness of a script value (a string) is
non-emptiness. -/

inductive PM where
  | npm | yarn | pnpm | bun
deriving DecidableEq, Repr

def pmName : PM → String
  | PM.npm => "npm"
  | PM.yarn => "yarn"
  | PM.pnpm => "pnpm"
  | PM.bun => "bun"

inductive ProjectType where
  | node | static | python | docker | unknown
deriving DecidableEq, Repr

structure ProjectAnalysis where
  type : ProjectType
  installCommand : Option (String × List String)
  preInstallCommands : List (String × List String)
  startCommand : Option (String × List String)
  detectedFiles : List String
  reason : String
  packageManager : Option PM
  shouldRemoveLockfile : Bool
deriving DecidableEq, Repr

/-- The `scripts` field of a parsed `package.json`: `none` when the field is
absent or falsy, otherwise the object's key/value pairs in declaration
order (keys unique, as `JSON.parse` deduplicates them). -/
structure PkgJson where
  scripts : Option (List (String × String))
deriving DecidableEq, Repr

/-- The sandbox filesystem as the analyzer sees it: the root listing and
per-path file contents, an `error` modelling the call throwing. -/
structure FS where
  rootFiles : Except String (List String)
  fileContent : String → Except String String

/-- Embeds `detectPackageManager(files)`: first lockfile match in priority order
bun, pnpm, yarn, npm. -/
def detectPackageManager (files : List String) : Option PM :=
  if files.contains "bun.lockb" || files.contains "bun.lock" then some PM.bun
  else if files.contains "pnpm-lock.yaml" then some PM.pnpm
  else if files.contains "yarn.lock" then some PM.yarn
  else if files.contains "package-lock.json" then some PM.npm
  else none

def lockfileNames : List String :=
  ["package-lock.json", "yarn.lock", "pnpm-lock.yaml", "bun.lockb", "bun.lock"]

/-- Embeds `getPackageManagerFiles(files)`: the lockfiles present in the listing. -/
def getPackageManagerFiles (files : List String) : List String :=
  files.filter (fun f => lockfileNames.contains f)

/-- Embeds `getInstallCommand(packageManager)`: per-manager install invocation,
npm (and the null default) sharing the flag-heavy branch. -/
def getInstallCommand : Option PM → String × List String
  | some PM.yarn => ("yarn", ["install", "--non-interactive"])
  | some PM.pnpm => ("pnpm", ["install", "--no-frozen-lockfile"])
  | some PM.bun => ("bun", ["install"])
  | _ => ("npm", ["install", "--yes", "--no-audit", "--no-fund",
                  "--loglevel=warn", "--legacy-peer-deps", "--prefer-offline",
                  "--ignore-scripts", "--progress=true"])

/-- JS property read on an object modelled as a key-unique assoc list. -/
def jsLookup (l : List (String × String)) (k : String) : Option String :=
  (l.find? (fun kv => kv.fst == k)).map Prod.snd

/-- Truthiness of `pkg.scripts.<k>`: the key is present and its string value
is non-empty. -/
def scriptTruthy (scripts : List (String × String)) (k : String) : Bool :=
  match jsLookup scripts k with
  | some v => v != ""
  | none => false

/-- The start-script selection inside the node branch of `analyzeProject`:
`startScript` starts as `"dev"`; a readable, parsable manifest with a truthy
`scripts` object reassigns it by truthiness of `dev`, `start`, `preview`,
then the first declared key; read or parse failures are absorbed by the
inner catch and leave the default. -/
def selectStartScript (parsePkg : String → Option PkgJson) (fs : FS) : String :=
  match fs.fileContent "package.json" with
  | Except.error _ => "dev"
  | Except.ok content =>
      match parsePkg content with
      | none => "dev"
      | some pkg =>
          match pkg.scripts with
          | none => "dev"
          | some scripts =>
              if scriptTruthy scripts "dev" then "dev"
              else if scriptTruthy scripts "start" then "start"
              else if scriptTruthy scripts "preview" then "preview"
              else
                match scripts.head? with
                | some kv => if kv.fst != "" then kv.fst else "dev"
                | none => "dev"

/-- Exact literal match at the head of the input. -/
def litAt : List Char → List Char → Bool
  | [], _ => true
  | _ :: _, [] => false
  | n :: ns, c :: cs => n == c && litAt ns cs

/-- Substring occurrence test, `String.prototype.includes`. -/
def containsSub (needle : List Char) : List Char → Bool
  | [] => needle.isEmpty
  | c :: cs => litAt needle (c :: cs) || containsSub needle cs

/-- Embeds `String.prototype.toLowerCase`, character by character. -/
def jsToLower (s : String) : List Char :=
  s.toList.map Char.toLower

/-- Embeds `f.toLowerCase().includes('dockerfile')`. -/
def isDockerfileName (f : String) : Bool :=
  containsSub "dockerfile".toList (jsToLower f)

/-- Embeds `analyzeProject(instance)`: classify the project from the root listing,
first match wins (node, python, docker, static, unknown); any exception
reaching the outer catch is downgraded to an `unknown` result. -/
def analyzeProject (parsePkg : String → Option PkgJson) (fs : FS) : ProjectAnalysis :=
  match fs.rootFiles with
  | Except.error _ =>
      { type := ProjectType.unknown
        installCommand := none
        preInstallCommands := []
        startCommand := none
        detectedFiles := []
        reason := "Error occurred while analyzing project files"
        packageManager := none
        shouldRemoveLockfile := false }
  | Except.ok files =>
      if files.contains "package.json" then
        let startScript := selectStartScript parsePkg fs
        let packageManager := detectPackageManager files
        { type := ProjectType.node
          installCommand := some (getInstallCommand packageManager)
          preInstallCommands := []
          startCommand := some ("npm", ["run", startScript])
          detectedFiles := "package.json" :: getPackageManagerFiles files
          reason := "Node.js project detected ("
                      ++ (match packageManager with
                          | some pm => pmName pm
                          | none => "npm") ++ ")"
          packageManager := some (packageManager.getD PM.npm)
          shouldRemoveLockfile := true }
      else if files.contains "requirements.txt" then
        { type := ProjectType.python
          installCommand := none
          preInstallCommands := []
          startCommand := none
          detectedFiles := ["requirements.txt"]
          reason := "Python project detected via requirements.txt"
          packageManager := none
          shouldRemoveLockfile := false }
      else if !(files.filter isDockerfileName).isEmpty then
        { type := ProjectType.docker
          installCommand := none
          preInstallCommands := []
          startCommand := none
          detectedFiles := [(files.filter isDockerfileName).headD ""]
          reason := "Docker project detected via Dockerfile"
          packageManager := none
          shouldRemoveLockfile := false }
      else if files.contains "index.html" then
        { type := ProjectType.static
          installCommand := none
          preInstallCommands := []
          startCommand := some ("npx", ["--yes", "serve"])
          detectedFiles := ["index.html"]
          reason := "Static HTML project detected via index.html"
          packageManager := none
          shouldRemoveLockfile := false }
      else
        { type := ProjectType.unknown
          installCommand := none
          preInstallCommands := []
          startCommand := none
          detectedFiles := []
          reason := "Could not automatically detect project type"
          packageManager := none
          shouldRemoveLockfile := false }

/-! ### Bootstrap orchestrator — `WebContainerPreview` in
webcontainer-preveiw.tsx

The component state that the claims are about (`previewUrl`, `urlInput`,
`currentStep`, `setupError`, `isSetupComplete`, `isSetupInProgress`,
navigation history) is gathered in `BootstrapState`.  `setupContainer` is
embedded as a function from an environment (the oracles for the sandbox
calls it awaits) and a state to a final state plus a trace of the effects
it performs; timer waits, spawns and step changes are trace events. -/

structure BootstrapState where
  previewUrl : String
  urlInput : String
  currentStep : Nat
  setupError : Option String
  isSetupComplete : Bool
  isSetupInProgress : Bool
  navHistory : List String
  historyIdx : Int
deriving DecidableEq, Repr

def initialBootstrapState : BootstrapState :=
  { previewUrl := "", urlInput := "/", currentStep := 0, setupError := none,
    isSetupComplete := false, isSetupInProgress := false,
    navHistory := [], historyIdx := -1 }

/-- The `server-ready` listener: whatever the current state, it publishes
the notified URL, marks the bootstrap complete, clears the in-progress flag
and resets navigation. -/
def serverReadyHandler (_port : Nat) (url : String) (s : BootstrapState) :
    BootstrapState :=
  { s with previewUrl := url, urlInput := "/",
           isSetupComplete := true, isSetupInProgress := false,
           navHistory := [url], historyIdx := 0 }

/-- The `forceResetup` effect: clear completion and in-progress flags, the
preview URL and the step index. -/
def forceResetupEffect (s : BootstrapState) : BootstrapState :=
  { s with isSetupComplete := false, isSetupInProgress := false,
           previewUrl := "", currentStep := 0 }

/-- Outcome of one awaited `runProcessWithTimeout` call: the race either
yields the process exit code or rejects (timeout, or any other exception
the surrounding catch absorbs alike). -/
inductive AttemptResult where
  | exited (code : Int)
  | timedOut
deriving DecidableEq, Repr

inductive SetupEvent where
  | setStep (n : Nat)
  | mountFiles
  | rmLockfile (name : String)
  | runPre (cmd : String) (timeoutMs : Nat)
  | runInstall (attempt : Nat) (cmd : String) (timeoutMs : Nat)
  | waitMs (ms : Nat)
  | spawnStart (cmd : String) (args : List String)
  | fail (msg : String)
deriving DecidableEq, Repr

/-- Environment of one `setupContainer` run: the oracles standing for each
awaited sandbox operation. -/
structure SetupEnv where
  instanceAvailable : Bool
  parsePkg : String → Option PkgJson
  fs : FS
  transformResult : Except String Unit
  mountResult : Except String Unit
  installResult : Nat → AttemptResult
  spawnStartResult : Except String Unit

def MAX_RETRIES : Nat := 2

/-- The install retry loop, `for (attempt = 1; attempt <= MAX_RETRIES;
attempt++)`: each attempt runs the install command under a 120000 ms
timeout; exit code 0 succeeds and breaks; otherwise, before any further
attempt, the loop waits 1000 ms. -/
def installLoopAux (results : Nat → AttemptResult) (cmd : String) :
    Nat → Nat → Bool × List SetupEvent
  | 0, _ => (false, [])
  | fuel + 1, attempt =>
      let ev := SetupEvent.runInstall attempt cmd 120000
      let failCont :=
        if attempt < MAX_RETRIES then
          let r := installLoopAux results cmd fuel (attempt + 1)
          (r.fst, ev :: SetupEvent.waitMs 1000 :: r.snd)
        else (false, [ev])
      match results attempt with
      | AttemptResult.exited code => if code = 0 then (true, [ev]) else failCont
      | AttemptResult.timedOut => failCont

def installLoop (results : Nat → AttemptResult) (cmd : String) :
    Bool × List SetupEvent :=
  installLoopAux results cmd MAX_RETRIES 1

/-- Recognizer for install-attempt events in a setup trace. -/
def isInstallEvent : SetupEvent → Bool
  | SetupEvent.runInstall _ _ _ => true
  | _ => false

/-- State after the catch block of `setupContainer`: the error is recorded
and the in-progress flag cleared. -/
def setupFailState (s : BootstrapState) (msg : String) : BootstrapState :=
  { s with setupError := some msg, isSetupInProgress := false }

/-- The events of step 4 when the plan has an install command: best-effort
lockfile removal, the pre-install commands each under a 30000 ms timeout
(failures absorbed), then the retrying install loop. -/
def installPhase (env : SetupEnv) (analysis : ProjectAnalysis) (cmd : String) :
    List SetupEvent :=
  (if analysis.shouldRemoveLockfile
   then lockfileNames.map SetupEvent.rmLockfile else [])
  ++ analysis.preInstallCommands.map (fun pc => SetupEvent.runPre pc.fst 30000)
  ++ (installLoop env.installResult cmd).snd

/-- Embeds `setupContainer()`: guard, then transform, mount, analyze, install,
start.  Transform, mount and the start spawn can throw, reaching the outer
catch; analyzer errors are absorbed inside `analyzeProject`; install
failures are logged and absorbed.  When there is a start command the run
stays in progress awaiting the server-ready notification; otherwise it is
marked complete directly. -/
def setupContainer (env : SetupEnv) (s : BootstrapState) :
    BootstrapState × List SetupEvent :=
  if !env.instanceAvailable || s.isSetupComplete || s.isSetupInProgress then
    (s, [])
  else
    let s1 := { s with isSetupInProgress := true, setupError := none,
                       currentStep := 1 }
    match env.transformResult with
    | Except.error msg =>
        (setupFailState s1 msg, [SetupEvent.setStep 1, SetupEvent.fail msg])
    | Except.ok _ =>
        let s2 := { s1 with currentStep := 2 }
        match env.mountResult with
        | Except.error msg =>
            (setupFailState s2 msg,
             [SetupEvent.setStep 1, SetupEvent.setStep 2, SetupEvent.mountFiles,
              SetupEvent.fail msg])
        | Except.ok _ =>
            let analysis := analyzeProject env.parsePkg env.fs
            let installEvs :=
              match analysis.installCommand with
              | some cmd => installPhase env analysis cmd.fst
              | none => []
            let s5 := { s2 with currentStep := 5 }
            let evs :=
              [SetupEvent.setStep 1, SetupEvent.setStep 2, SetupEvent.mountFiles,
               SetupEvent.setStep 3, SetupEvent.setStep 4]
              ++ installEvs ++ [SetupEvent.setStep 5]
            match analysis.startCommand with
            | some sc =>
                match env.spawnStartResult with
                | Except.error msg =>
                    (setupFailState s5 msg, evs ++ [SetupEvent.fail msg])
                | Except.ok _ =>
                    (s5, evs ++ [SetupEvent.spawnStart sc.fst sc.snd])
            | none =>
                ({ s5 with isSetupComplete := true, isSetupInProgress := false },
                 evs)

/-! ### Terminal tab manager — `TerminalTabs`

State: the non-privileged session ids (`terminalIds`, the privileged bolt
session 0 is rendered separately and never in this list), the monotone id
counter, the per-session ref map carrying each session's `processRunning`
flag, and the `runningProcesses` badge set.  `closeTerminal` emits an
`interrupt` event when it calls `killProcess()` on a still-running session
and a `discardRef` event when it deletes the session's ref. -/

def MAX_TERMINALS : Nat := 3

inductive TabEvent where
  | interrupt (id : Nat)
  | discardRef (id : Nat)
deriving DecidableEq, Repr

structure TabsState where
  activeTerminal : Nat
  terminalIds : List Nat
  nextId : Nat
  refs : List (Nat × Bool)
  runningSet : List Nat
deriving DecidableEq, Repr

/-- Initial render: only the bolt terminal (id 0) exists, not running. -/
def initTabsState : TabsState :=
  { activeTerminal := 0, terminalIds := [], nextId := 1,
    refs := [(0, false)], runningSet := [] }

/-- Embeds `addTerminal()`: refuse beyond `MAX_TERMINALS` open non-privileged
sessions; otherwise allocate the next id, append it, focus it, and mount
its terminal component (registering a ref, initially not running). -/
def addTerminal (s : TabsState) : TabsState :=
  if s.terminalIds.length < MAX_TERMINALS then
    let newId := s.nextId
    { s with nextId := s.nextId + 1,
             terminalIds := s.terminalIds ++ [newId],
             activeTerminal := newId,
             refs := s.refs ++ [(newId, false)] }
  else s

/-- Embeds `terminalRefs.current.get(id)?.isProcessRunning()` (false when the ref
is missing). -/
def refRunning (s : TabsState) (id : Nat) : Bool :=
  match s.refs.find? (fun r => r.fst == id) with
  | some r => r.snd
  | none => false

/-- Embeds `closeTerminal(id)`: the bolt session 0 is never closed; otherwise
interrupt a still-running process, then discard the ref, drop the id from
the running set and the tab list, and fall back to session 0 if the closed
tab was active. -/
def closeTerminal (id : Nat) (s : TabsState) : TabsState × List TabEvent :=
  if id == 0 then (s, [])
  else
    ({ s with refs := s.refs.eraseP (fun r => r.fst == id),
              runningSet := s.runningSet.filter (fun t => t != id),
              terminalIds := s.terminalIds.filter (fun t => t != id),
              activeTerminal := if s.activeTerminal == id then 0
                                else s.activeTerminal },
     (if refRunning s id then [TabEvent.interrupt id] else [])
       ++ [TabEvent.discardRef id])

/-- Embeds `handleProcessStateChange` plus the session's own `processRunning`
flip: update the ref's flag and the badge set. -/
def setProcState (id : Nat) (b : Bool) (s : TabsState) : TabsState :=
  { s with refs := s.refs.map (fun r => if r.fst == id then (r.fst, b) else r),
           runningSet :=
             if b then
               (if s.runningSet.contains id then s.runningSet
                else s.runningSet ++ [id])
             else s.runningSet.filter (fun t => t != id) }

/-- Tab switching. -/
def setActiveTab (id : Nat) (s : TabsState) : TabsState :=
  { s with activeTerminal := id }

/-- States the tab manager can actually be in: everything generated from
the initial render by its event handlers. -/
inductive TabsReachable : TabsState → Prop where
  | init : TabsReachable initTabsState
  | add {s} : TabsReachable s → TabsReachable (addTerminal s)
  | close {s} (id : Nat) : TabsReachable s → TabsReachable (closeTerminal id s).fst
  | procState {s} (id : Nat) (b : Bool) :
      TabsReachable s → TabsReachable (setProcState id b s)
  | active {s} (id : Nat) : TabsReachable s → TabsReachable (setActiveTab id s)

/-! ### Concrete instances used by witnesses and counterexamples -/

/-- A parse oracle that fails on every input, as `JSON.parse` does on a
syntactically invalid manifest. -/
def parseNever : String → Option PkgJson := fun _ => none

/-- Filesystem whose root listing has a `package.json` holding invalid
JSON. -/
def fsInvalidManifest : FS :=
  { rootFiles := Except.ok ["package.json"],
    fileContent := fun f =>
      if f == "package.json" then Except.ok "not valid json"
      else Except.error "ENOENT" }

/-- Filesystem with a readable `package.json` whose content is the token
`pkg-empty-dev`. -/
def fsEmptyDev : FS :=
  { rootFiles := Except.ok ["package.json"],
    fileContent := fun f =>
      if f == "package.json" then Except.ok "pkg-empty-dev"
      else Except.error "ENOENT" }

/-- Parse oracle mapping `pkg-empty-dev` to a manifest that declares a `dev`
script with an empty value followed by a non-empty `start` script. -/
def parseEmptyDev : String → Option PkgJson := fun s =>
  if s == "pkg-empty-dev" then
    some { scripts := some [("dev", ""), ("start", "node server.js")] }
  else none

/-- Registry holding one registered process, `proc-1`, whose kill throws. -/
def regOne : RegistryState :=
  (register true "npm run dev" none 100 RegistryState.initial).snd.fst

/-- Bootstrap environment for the witness runs: a node project with an
unparsable manifest, both install attempts exiting non-zero. -/
def envWitness : SetupEnv :=
  { instanceAvailable := true
    parsePkg := parseNever
    fs := fsInvalidManifest
    transformResult := Except.ok ()
    mountResult := Except.ok ()
    installResult := fun _ => AttemptResult.exited 1
    spawnStartResult := Except.ok () }

/-- Tab state reached by opening one extra terminal and its process
starting to run. -/
def tabsWitness : TabsState :=
  setProcState 1 true (addTerminal initTabsState)

/-! ## Theorems -/

/-! ### Helper lemmas (shared) -/

theorem eraseP_id_not_mem (l : List ProcInfo) (id : String)
    (h : (l.map ProcInfo.id).Nodup) :
    ∀ q ∈ l.eraseP (fun p => p.id == id), q.id ≠ id := by
  induction l with
  | nil => intro q hq; simp [List.eraseP] at hq
  | cons p ps ih =>
      intro q hq
      simp only [List.map_cons, List.nodup_cons] at h
      simp only [List.eraseP_cons] at hq
      by_cases hp : (p.id == id) = true
      · rw [hp] at hq
        simp only [cond_true] at hq
        intro hqid
        apply h.1
        have hpid : p.id = id := beq_iff_eq.mp hp
        rw [hpid, ← hqid]
        exact List.mem_map_of_mem ProcInfo.id hq
      · rw [Bool.not_eq_true] at hp
        rw [hp] at hq
        simp only [cond_false] at hq
        rcases List.mem_cons.mp hq with rfl | hq2
        · intro hqid
          rw [beq_iff_eq.mpr hqid] at hp
          simp at hp
        · exact ih h.2 q hq2

theorem find?_eraseP_id_none (l : List ProcInfo) (id : String)
    (h : (l.map ProcInfo.id).Nodup) :
    (l.eraseP (fun p => p.id == id)).find? (fun p => p.id == id) = none := by
  rw [List.find?_eq_none]
  intro q hq
  simpa using eraseP_id_not_mem l id h q hq

/-- C1: a `server-ready` notification from the sandbox runtime, arriving in
any orchestrator state whatsoever — in particular before the internal step
tracking has reached the Starting step — sets the externally visible
preview URL to the notified URL, marks the bootstrap complete, and clears
the in-progress flag. -/
theorem serverReady_always_publishes (port : Nat) (url : String)
    (s : BootstrapState) :
    (serverReadyHandler port url s).previewUrl = url ∧
    (serverReadyHandler port url s).isSetupComplete = true ∧
    (serverReadyHandler port url s).isSetupInProgress = false :=
  ⟨rfl, rfl, rfl⟩

/-- C7: killing a tracked id best-effort terminates the process, removes
the entry from `getAll`, notifies, and returns true; killing an unknown id
returns false and changes nothing; in particular a second kill of the same
id returns false. -/
theorem kill_tracked_then_untracked (s : RegistryState) (id : String)
    (info : ProcInfo)
    (huniq : (s.processes.map ProcInfo.id).Nodup)
    (hfound : findProc s id = some info) :
    (kill id s).fst = true ∧
    (∀ q ∈ getAll (kill id s).snd.fst, q.id ≠ id) ∧
    (kill id s).snd.snd = [RegEvent.termAttempt id, RegEvent.notify] ∧
    (kill id (kill id s).snd.fst).fst = false ∧
    (∀ s2 : RegistryState, findProc s2 id = none → kill id s2 = (false, s2, [])) := by
  have huk : ∀ s2 : RegistryState, findProc s2 id = none →
      kill id s2 = (false, s2, []) := by
    intro s2 h2
    simp [kill, h2]
  have hstate : (kill id s).snd.fst.processes
      = s.processes.eraseP (fun p => p.id == id) := by
    simp [kill, hfound]
  have hnone : findProc (kill id s).snd.fst id = none := by
    unfold findProc
    rw [hstate]
    exact find?_eraseP_id_none s.processes id huniq
  refine ⟨?_, ?_, ?_, ?_, huk⟩
  · simp [kill, hfound]
  · intro q hq
    simp only [kill, hfound, getAll] at hq
    exact eraseP_id_not_mem s.processes id huniq q hq
  · simp [kill, hfound]
  · rw [huk _ hnone]

/-- C8: `killAll` leaves the table empty for every prior state — including
states whose entries' kill calls throw — attempts to terminate every
tracked process, and notifies subscribers exactly once. -/
theorem killAll_clears_and_notifies_once (s : RegistryState) :
    (killAll s).fst.processes = [] ∧
    (killAll s).snd.count RegEvent.notify = 1 ∧
    (∀ p ∈ s.processes, RegEvent.termAttempt p.id ∈ (killAll s).snd) := by
  refine ⟨rfl, ?_, ?_⟩
  · have h0 : (s.processes.map (fun p => RegEvent.termAttempt p.id)).count
        RegEvent.notify = 0 := by
      rw [List.count_eq_zero]
      intro hmem
      rcases List.mem_map.mp hmem with ⟨p, _, hp⟩
      exact RegEvent.noConfusion hp
    simp [killAll, List.count_append, h0]
  · intro p hp
    simp only [killAll]
    exact List.mem_append.mpr (Or.inl (List.mem_map_of_mem _ hp))

/-- C5: for every root listing the package-manager detection returns the
single highest-priority lockfile match, priority bun over pnpm over yarn
over npm, and with no lockfile present the node analysis defaults the
package manager to npm. -/
theorem detect_pm_priority_and_default (files : List String)
    (parse : String → Option PkgJson) (fs : FS) :
    (detectPackageManager files = some PM.bun ↔
      (files.contains "bun.lockb" = true ∨ files.contains "bun.lock" = true)) ∧
    (detectPackageManager files = some PM.pnpm ↔
      (files.contains "bun.lockb" = false ∧ files.contains "bun.lock" = false ∧
       files.contains "pnpm-lock.yaml" = true)) ∧
    (detectPackageManager files = some PM.yarn ↔
      (files.contains "bun.lockb" = false ∧ files.contains "bun.lock" = false ∧
       files.contains "pnpm-lock.yaml" = false ∧
       files.contains "yarn.lock" = true)) ∧
    (detectPackageManager files = some PM.npm ↔
      (files.contains "bun.lockb" = false ∧ files.contains "bun.lock" = false ∧
       files.contains "pnpm-lock.yaml" = false ∧
       files.contains "yarn.lock" = false ∧
       files.contains "package-lock.json" = true)) ∧
    (detectPackageManager files = none ↔
      (files.contains "bun.lockb" = false ∧ files.contains "bun.lock" = false ∧
       files.contains "pnpm-lock.yaml" = false ∧
       files.contains "yarn.lock" = false ∧
       files.contains "package-lock.json" = false)) ∧
    (fs.rootFiles = Except.ok files → files.contains "package.json" = true →
      detectPackageManager files = none →
      (analyzeProject parse fs).packageManager = some PM.npm) := by
  refine ⟨?_, ?_, ?_, ?_, ?_, ?_⟩
  · simp only [detectPackageManager]
    split_ifs with h1 h2 h3 h4 <;> simp_all [Bool.or_eq_true]
  · simp only [detectPackageManager]
    split_ifs with h1 h2 h3 h4 <;> simp_all [Bool.or_eq_true] <;> tauto
  · simp only [detectPackageManager]
    split_ifs with h1 h2 h3 h4 <;> simp_all [Bool.or_eq_true] <;> tauto
  · simp only [detectPackageManager]
    split_ifs with h1 h2 h3 h4 <;> simp_all [Bool.or_eq_true] <;> tauto
  · simp only [detectPackageManager]
    split_ifs with h1 h2 h3 h4 <;> simp_all [Bool.or_eq_true] <;> tauto
  · intro hroot hpkg hnone
    have hmem : "package.json" ∈ files := by simpa using hpkg
    simp [analyzeProject, hroot, hmem, hnone]

/-- C4 counterexample: a root listing containing a `package.json` whose
content is not valid JSON does not produce a result of type `unknown` —
the parse failure is absorbed by the inner catch of the node branch, so
the result has type `node`. -/
theorem analyzeProject_invalid_manifest_is_node :
    (analyzeProject parseNever fsInvalidManifest).type = ProjectType.node ∧
    (analyzeProject parseNever fsInvalidManifest).type ≠ ProjectType.unknown := by
  exact ⟨rfl, by decide⟩

/-- C4 amended: `analyzeProject` never raises — for every filesystem it
returns a `ProjectAnalysis` with a non-empty reason string; a root listing
with an invalid-JSON `package.json` yields type `node` with the default
`dev` start script (the parse failure is absorbed by the inner handler),
and only an exception escaping to the outer handler, such as a failing
root listing, yields type `unknown` with a non-empty reason. -/
theorem analyzeProject_never_raises (parse : String → Option PkgJson)
    (fs : FS) (files : List String) (content : String) :
    ((analyzeProject parse fs).reason ≠ "") ∧
    (fs.rootFiles = Except.ok files → files.contains "package.json" = true →
      fs.fileContent "package.json" = Except.ok content → parse content = none →
      (analyzeProject parse fs).type = ProjectType.node ∧
      (analyzeProject parse fs).startCommand = some ("npm", ["run", "dev"])) ∧
    (∀ e, fs.rootFiles = Except.error e →
      (analyzeProject parse fs).type = ProjectType.unknown ∧
      (analyzeProject parse fs).reason
        = "Error occurred while analyzing project files") := by
  refine ⟨?_, ?_, ?_⟩
  · rcases hr : fs.rootFiles with e | fls
    · simp [analyzeProject, hr]
    · simp only [analyzeProject, hr]
      split_ifs with h1 h2 h3 h4
      · rcases hpm : detectPackageManager fls with _ | pm
        · simp [hpm]
        · cases pm <;> simp [hpm, pmName]
      · simp
      · simp
      · simp
      · simp
  · intro hroot hpkg hfile hparse
    have hmem : "package.json" ∈ files := by simpa using hpkg
    simp [analyzeProject, hroot, hmem, selectStartScript, hfile, hparse]
  · intro e hroot
    simp [analyzeProject, hroot]

/-- C6 counterexample: a readable manifest that declares a `dev` script
(with an empty value) followed by a non-empty `start` script yields start
script `start`, not the declared higher-priority `dev` — the source tests
JavaScript truthiness of the script value, not declaration. -/
theorem startScript_skips_empty_valued_dev :
    (analyzeProject parseEmptyDev fsEmptyDev).startCommand
      = some ("npm", ["run", "start"]) ∧
    (analyzeProject parseEmptyDev fsEmptyDev).startCommand
      ≠ some ("npm", ["run", "dev"]) := by
  exact ⟨rfl, by decide⟩

/-- C6 amended: the chosen start script follows the priority dev, start,
preview, first declared script, where a script only counts when its value
is a non-empty string (JS truthiness) and the first declared script only
counts when its name is non-empty; the script defaults to `dev` when the
manifest is unreadable, unparsable, has no scripts object or declares no
scripts; and the node analysis always starts the chosen script via
`npm run`. -/
theorem startScript_priority_truthy (parse : String → Option PkgJson)
    (fs : FS) (files : List String) (content : String) (pkg : PkgJson)
    (scripts : List (String × String)) :
    ((∀ e, fs.fileContent "package.json" = Except.error e →
        selectStartScript parse fs = "dev")) ∧
    (fs.fileContent "package.json" = Except.ok content → parse content = none →
        selectStartScript parse fs = "dev") ∧
    (fs.fileContent "package.json" = Except.ok content →
        parse content = some pkg → pkg.scripts = none →
        selectStartScript parse fs = "dev") ∧
    (fs.fileContent "package.json" = Except.ok content →
        parse content = some pkg → pkg.scripts = some scripts →
        (((∃ v, jsLookup scripts "dev" = some v ∧ v ≠ "") →
            selectStartScript parse fs = "dev") ∧
         (scriptTruthy scripts "dev" = false →
            (∃ v, jsLookup scripts "start" = some v ∧ v ≠ "") →
            selectStartScript parse fs = "start") ∧
         (scriptTruthy scripts "dev" = false →
            scriptTruthy scripts "start" = false →
            (∃ v, jsLookup scripts "preview" = some v ∧ v ≠ "") →
            selectStartScript parse fs = "preview") ∧
         (scriptTruthy scripts "dev" = false →
            scriptTruthy scripts "start" = false →
            scriptTruthy scripts "preview" = false →
            ∀ k v rest, scripts = (k, v) :: rest → k ≠ "" →
            selectStartScript parse fs = k) ∧
         (scripts = [] → selectStartScript parse fs = "dev"))) ∧
    (fs.rootFiles = Except.ok files → files.contains "package.json" = true →
        (analyzeProject parse fs).startCommand
          = some ("npm", ["run", selectStartScript parse fs])) := by
  have htr : ∀ (l : List (String × String)) (k : String),
      (∃ v, jsLookup l k = some v ∧ v ≠ "") → scriptTruthy l k = true := by
    intro l k ⟨v, hv, hne⟩
    simp [scriptTruthy, hv, hne]
  refine ⟨?_, ?_, ?_, ?_, ?_⟩
  · intro e he
    simp [selectStartScript, he]
  · intro hc hp
    simp [selectStartScript, hc, hp]
  · intro hc hp hs
    simp [selectStartScript, hc, hp, hs]
  · intro hc hp hs
    refine ⟨?_, ?_, ?_, ?_, ?_⟩
    · intro hex
      simp [selectStartScript, hc, hp, hs, htr scripts "dev" hex]
    · intro hdev hex
      simp [selectStartScript, hc, hp, hs, hdev, htr scripts "start" hex]
    · intro hdev hstart hex
      simp [selectStartScript, hc, hp, hs, hdev, hstart,
            htr scripts "preview" hex]
    · intro hdev hstart hprev k v rest hkv hk
      subst hkv
      simp [selectStartScript, hc, hp, hs, hdev, hstart, hprev, hk]
    · intro hnil
      subst hnil
      simp [selectStartScript, hc, hp, hs, scriptTruthy, jsLookup]
  · intro hroot hpkg
    have hmem : "package.json" ∈ files := by simpa using hpkg
    simp [analyzeProject, hroot, hmem]

/-- Witness for C7 at a concrete registry: a registered process whose kill
throws is killed successfully, and a second kill returns false. -/
theorem kill_tracked_witness :
    (kill "proc-1" regOne).fst = true ∧
    (kill "proc-1" (kill "proc-1" regOne).snd.fst).fst = false := by
  have h := kill_tracked_then_untracked regOne "proc-1"
    { id := "proc-1", killThrows := true, command := "npm run dev",
      port := none, startedAt := 100 } (by decide) (by decide)
  exact ⟨h.1, h.2.2.2.1⟩

/-- Witness for C5 at concrete listings: pnpm wins over yarn, and a
lockfile-free node project defaults to npm. -/
theorem detect_pm_witness :
    detectPackageManager ["pnpm-lock.yaml", "yarn.lock"] = some PM.pnpm ∧
    (analyzeProject parseNever fsInvalidManifest).packageManager
      = some PM.npm := by
  refine ⟨?_, ?_⟩
  · exact (detect_pm_priority_and_default ["pnpm-lock.yaml", "yarn.lock"]
      parseNever fsInvalidManifest).2.1.mpr (by decide)
  · exact (detect_pm_priority_and_default ["package.json"]
      parseNever fsInvalidManifest).2.2.2.2.2 rfl (by decide) (by decide)

/-- Witness for the amended C4 at the invalid-manifest filesystem. -/
theorem analyzeProject_never_raises_witness :
    (analyzeProject parseNever fsInvalidManifest).reason ≠ "" ∧
    (analyzeProject parseNever fsInvalidManifest).type = ProjectType.node ∧
    (analyzeProject parseNever fsInvalidManifest).startCommand
      = some ("npm", ["run", "dev"]) := by
  have h := analyzeProject_never_raises parseNever fsInvalidManifest
    ["package.json"] "not valid json"
  exact ⟨h.1, (h.2.1 rfl (by decide) rfl rfl).1,
         (h.2.1 rfl (by decide) rfl rfl).2⟩

/-- Witness for the amended C6 at the empty-valued-dev manifest. -/
theorem startScript_priority_witness :
    selectStartScript parseEmptyDev fsEmptyDev = "start" ∧
    (analyzeProject parseEmptyDev fsEmptyDev).startCommand
      = some ("npm", ["run", selectStartScript parseEmptyDev fsEmptyDev]) := by
  have h := startScript_priority_truthy parseEmptyDev fsEmptyDev
    ["package.json"] "pkg-empty-dev"
    { scripts := some [("dev", ""), ("start", "node server.js")] }
    [("dev", ""), ("start", "node server.js")]
  refine ⟨?_, ?_⟩
  · exact (h.2.2.2.1 rfl rfl rfl).2.1 (by decide)
      ⟨"node server.js", by decide, by decide⟩
  · exact h.2.2.2.2 rfl (by decide)

theorem installLoop_both_fail (results : Nat → AttemptResult) (c : String)
    (h1 : results 1 ≠ AttemptResult.exited 0)
    (h2 : results 2 ≠ AttemptResult.exited 0) :
    installLoop results c =
      (false, [SetupEvent.runInstall 1 c 120000, SetupEvent.waitMs 1000,
               SetupEvent.runInstall 2 c 120000]) := by
  rcases hr1 : results 1 with c1 | _
  · have hc1 : ¬ c1 = 0 := fun h => h1 (h ▸ hr1)
    rcases hr2 : results 2 with c2 | _
    · have hc2 : ¬ c2 = 0 := fun h => h2 (h ▸ hr2)
      simp [installLoop, installLoopAux, MAX_RETRIES, hr1, hr2, hc1, hc2]
    · simp [installLoop, installLoopAux, MAX_RETRIES, hr1, hr2, hc1]
  · rcases hr2 : results 2 with c2 | _
    · have hc2 : ¬ c2 = 0 := fun h => h2 (h ▸ hr2)
      simp [installLoop, installLoopAux, MAX_RETRIES, hr1, hr2, hc2]
    · simp [installLoop, installLoopAux, MAX_RETRIES, hr1, hr2]

/-- C2: with an install command in the plan and both install attempts
failing (non-zero exit or timeout), the orchestrator makes exactly 2
attempts, each under a 120000 ms timeout, waits 1000 ms between them, does
not transition to Error (no setup error is recorded), and proceeds to the
Starting step (step index 5). -/
theorem install_retry_not_fatal (env : SetupEnv) (s : BootstrapState)
    (c : String) (args : List String)
    (hInst : env.instanceAvailable = true)
    (hNC : s.isSetupComplete = false)
    (hNP : s.isSetupInProgress = false)
    (hT : env.transformResult = Except.ok ())
    (hM : env.mountResult = Except.ok ())
    (hSp : env.spawnStartResult = Except.ok ())
    (hCmd : (analyzeProject env.parsePkg env.fs).installCommand = some (c, args))
    (h1 : env.installResult 1 ≠ AttemptResult.exited 0)
    (h2 : env.installResult 2 ≠ AttemptResult.exited 0) :
    (setupContainer env s).fst.currentStep = 5 ∧
    (setupContainer env s).fst.setupError = none ∧
    (installLoop env.installResult c).snd
      = [SetupEvent.runInstall 1 c 120000, SetupEvent.waitMs 1000,
         SetupEvent.runInstall 2 c 120000] ∧
    (setupContainer env s).snd.countP isInstallEvent = 2 ∧
    SetupEvent.setStep 5 ∈ (setupContainer env s).snd := by
  have hloop := installLoop_both_fail env.installResult c h1 h2
  have hzrm : List.countP (isInstallEvent ∘ SetupEvent.rmLockfile)
      lockfileNames = 0 := by
    rw [List.countP_eq_zero]
    intro a _
    simp [Function.comp, isInstallEvent]
  have hzpre : List.countP (isInstallEvent ∘ fun pc => SetupEvent.runPre pc.1 30000)
      (analyzeProject env.parsePkg env.fs).preInstallCommands = 0 := by
    rw [List.countP_eq_zero]
    intro a _
    simp [Function.comp, isInstallEvent]
  have hphase : (installPhase env (analyzeProject env.parsePkg env.fs) c).countP
      isInstallEvent = 2 := by
    unfold installPhase
    rcases (analyzeProject env.parsePkg env.fs).shouldRemoveLockfile <;>
      simp [List.countP_append, List.countP_map, hzrm, hzpre,
            hloop, isInstallEvent]
  rcases hs : (analyzeProject env.parsePkg env.fs).startCommand with _ | sc
  · refine ⟨?_, ?_, congrArg Prod.snd hloop, ?_, ?_⟩ <;>
      simp [setupContainer, hInst, hNC, hNP, hT, hM, hSp, hCmd, hs,
            List.countP_append, hphase, isInstallEvent]
  · refine ⟨?_, ?_, congrArg Prod.snd hloop, ?_, ?_⟩ <;>
      simp [setupContainer, hInst, hNC, hNP, hT, hM, hSp, hCmd, hs,
            List.countP_append, hphase, isInstallEvent]

/-- C3: a bootstrap run is a no-op while one is in progress or complete;
a force-reset clears both flags, the preview URL and the step index; and a
run started after a force-reset proceeds, its first step change being step
1. -/
theorem setup_guard_and_force_reset (env : SetupEnv) (s : BootstrapState) :
    (s.isSetupComplete = true ∨ s.isSetupInProgress = true →
      setupContainer env s = (s, [])) ∧
    ((forceResetupEffect s).isSetupComplete = false ∧
     (forceResetupEffect s).isSetupInProgress = false ∧
     (forceResetupEffect s).currentStep = 0 ∧
     (forceResetupEffect s).previewUrl = "") ∧
    (env.instanceAvailable = true →
      (setupContainer env (forceResetupEffect s)).snd.head?
        = some (SetupEvent.setStep 1)) := by
  refine ⟨?_, ⟨rfl, rfl, rfl, rfl⟩, ?_⟩
  · intro h
    rcases h with h | h <;> simp [setupContainer, h]
  · intro hinst
    rcases ht : env.transformResult with msg | u
    · simp [setupContainer, forceResetupEffect, hinst, ht]
    · rcases hm : env.mountResult with msg | u
      · simp [setupContainer, forceResetupEffect, hinst, ht, hm]
      · rcases hs : (analyzeProject env.parsePkg env.fs).startCommand with _ | sc
        · simp [setupContainer, forceResetupEffect, hinst, ht, hm, hs]
        · rcases hsp : env.spawnStartResult with msg | u <;>
            simp [setupContainer, forceResetupEffect, hinst, ht, hm, hs, hsp]

/-- Witness for C2: both install attempts of the concrete environment exit
with code 1, yet the run reaches step 5 with no recorded error after
exactly 2 install attempts. -/
theorem install_retry_not_fatal_witness :
    (setupContainer envWitness initialBootstrapState).fst.currentStep = 5 ∧
    (setupContainer envWitness initialBootstrapState).fst.setupError = none ∧
    (setupContainer envWitness initialBootstrapState).snd.countP
      isInstallEvent = 2 := by
  have h := install_retry_not_fatal envWitness initialBootstrapState "npm"
    ["install", "--yes", "--no-audit", "--no-fund", "--loglevel=warn",
     "--legacy-peer-deps", "--prefer-offline", "--ignore-scripts",
     "--progress=true"]
    rfl rfl rfl rfl rfl rfl rfl (by decide) (by decide)
  exact ⟨h.1, h.2.1, h.2.2.2.1⟩

/-- Witness for C3: a run is refused while one is in progress, and after a
force-reset of a completed state a new run starts at step 1. -/
theorem setup_guard_witness :
    setupContainer envWitness
        { initialBootstrapState with isSetupInProgress := true }
      = ({ initialBootstrapState with isSetupInProgress := true }, []) ∧
    (setupContainer envWitness
        (forceResetupEffect
          { initialBootstrapState with isSetupComplete := true })).snd.head?
      = some (SetupEvent.setStep 1) := by
  exact ⟨(setup_guard_and_force_reset envWitness
            { initialBootstrapState with isSetupInProgress := true }).1
            (Or.inr rfl),
         (setup_guard_and_force_reset envWitness
            { initialBootstrapState with isSetupComplete := true }).2.2 rfl⟩

theorem tabs_cap_invariant (s : TabsState) (h : TabsReachable s) :
    s.terminalIds.length ≤ MAX_TERMINALS := by
  induction h with
  | init => simp [initTabsState, MAX_TERMINALS]
  | add _ ih =>
      unfold addTerminal
      split_ifs with hlt
      · simp only [List.length_append, List.length_singleton]
        omega
      · exact ih
  | close id _ ih =>
      unfold closeTerminal
      split_ifs <;>
        first
          | exact ih
          | exact le_trans (List.length_filter_le _ _) ih
  | procState id b _ ih => simpa [setProcState] using ih
  | active id _ ih => simpa [setActiveTab] using ih

/-- C9: in every reachable tab-manager state at most `MAX_TERMINALS` (3)
non-privileged sessions are open besides the privileged bolt session 0;
closing session 0 is a no-op; and closing a non-default session whose
process is marked running emits the interrupt before the ref is discarded
and removes the session. -/
theorem terminal_sessions_capped_and_close (s : TabsState) (id : Nat)
    (hreach : TabsReachable s) :
    s.terminalIds.length ≤ MAX_TERMINALS ∧
    closeTerminal 0 s = (s, []) ∧
    (id ≠ 0 → refRunning s id = true →
      (closeTerminal id s).snd
        = [TabEvent.interrupt id, TabEvent.discardRef id] ∧
      (closeTerminal id s).fst.terminalIds.contains id = false) := by
  refine ⟨tabs_cap_invariant s hreach, rfl, ?_⟩
  intro hid hrun
  have hb : (id == 0) = false := by simpa using hid
  constructor
  · simp [closeTerminal, hb, hrun]
  · simp [closeTerminal, hb, List.mem_filter]

/-- Witness for C9 at a concrete reachable state: one extra terminal whose
process runs; closing it interrupts first, then discards, and the cap
holds. -/
theorem terminal_close_witness :
    tabsWitness.terminalIds.length ≤ MAX_TERMINALS ∧
    (closeTerminal 1 tabsWitness).snd
      = [TabEvent.interrupt 1, TabEvent.discardRef 1] ∧
    (closeTerminal 1 tabsWitness).fst.terminalIds.contains 1 = false := by
  have h := terminal_sessions_capped_and_close tabsWitness 1
    (TabsReachable.procState 1 true (TabsReachable.add TabsReachable.init))
  exact ⟨h.1, (h.2.2 (by decide) (by decide)).1, (h.2.2 (by decide) (by decide)).2⟩

theorem setPortFirst_find (l : List ProcInfo) (pid : String) (n : Nat)
    (info : ProcInfo) (h : l.find? (fun q => q.id == pid) = some info) :
    (setPortFirst l pid n).find? (fun q => q.id == pid)
      = some { info with port := some n } := by
  induction l with
  | nil => simp [List.find?] at h
  | cons p ps ih =>
      by_cases hp : (p.id == pid) = true
      · simp only [List.find?, hp] at h
        injection h with h
        subst h
        simp [setPortFirst, List.find?, hp]
      · have hpf : (p.id == pid) = false := by simpa using hp
        simp only [List.find?, hpf] at h
        simp only [setPortFirst, hpf, Bool.false_eq_true, if_false, List.find?]
        exact ih h

theorem setPortFirst_ids (l : List ProcInfo) (pid : String) (n : Nat) :
    (setPortFirst l pid n).map ProcInfo.id = l.map ProcInfo.id := by
  induction l with
  | nil => rfl
  | cons p ps ih =>
      by_cases hp : (p.id == pid) = true
      · simp [setPortFirst, hp]
      · have hpf : (p.id == pid) = false := by simpa using hp
        simp [setPortFirst, hpf, ih]

theorem setPortFirst_mem (l : List ProcInfo) (pid : String) (n : Nat)
    (info : ProcInfo) (h : l.find? (fun q => q.id == pid) = some info) :
    { info with port := some n } ∈ setPortFirst l pid n := by
  induction l with
  | nil => simp [List.find?] at h
  | cons p ps ih =>
      by_cases hp : (p.id == pid) = true
      · simp only [List.find?, hp] at h
        injection h with h
        subst h
        simp [setPortFirst, hp]
      · have hpf : (p.id == pid) = false := by simpa using hp
        simp only [List.find?, hpf] at h
        simp only [setPortFirst, hpf, Bool.false_eq_true, if_false]
        exact List.mem_cons_of_mem p (ih h)

theorem setPortFirst_unique_id (l : List ProcInfo) (pid : String) (n : Nat)
    (huniq : (l.map ProcInfo.id).Nodup) (info : ProcInfo)
    (h : l.find? (fun q => q.id == pid) = some info) :
    ∀ q ∈ setPortFirst l pid n, q.id = pid →
      q = { info with port := some n } := by
  induction l with
  | nil => intro q hq; simp [setPortFirst] at hq
  | cons p ps ih =>
      intro q hq hqid
      simp only [List.map_cons, List.nodup_cons] at huniq
      by_cases hp : (p.id == pid) = true
      · simp only [List.find?, hp] at h
        injection h with h
        subst h
        simp only [setPortFirst, hp, if_true] at hq
        rcases List.mem_cons.mp hq with rfl | hq2
        · rfl
        · exfalso
          apply huniq.1
          rw [beq_iff_eq.mp hp, ← hqid]
          exact List.mem_map_of_mem ProcInfo.id hq2
      · have hpf : (p.id == pid) = false := by simpa using hp
        simp only [List.find?, hpf] at h
        simp only [setPortFirst, hpf, Bool.false_eq_true, if_false] at hq
        rcases List.mem_cons.mp hq with rfl | hq2
        · exact absurd (beq_iff_eq.mpr hqid) (by simpa using hp)
        · exact ih huniq.2 h q hq2 hqid

/-- C10: once the started dev-server process emits output matching the
port pattern, the registry entry registered for it (still portless) gets
that port recorded, after which `killByPort` with the detected port
terminates the process, removes the entry, and returns true. -/
theorem port_detection_enables_killByPort (s : RegistryState) (procId : String)
    (chunk : String) (p : Nat) (info : ProcInfo)
    (huniq : (s.processes.map ProcInfo.id).Nodup)
    (hport : findPort chunk.toList = some p)
    (hfound : findProc s procId = some info)
    (hnone : info.port = none) :
    findProc (handleStartOutput procId chunk s) procId
      = some { info with port := some p } ∧
    (killByPort p (handleStartOutput procId chunk s)).fst = true ∧
    findProc (killByPort p (handleStartOutput procId chunk s)).snd.fst procId
      = none ∧
    RegEvent.termAttempt procId
      ∈ (killByPort p (handleStartOutput procId chunk s)).snd.snd := by
  have hfind : s.processes.find? (fun q => q.id == procId) = some info := hfound
  have hidp : info.id = procId := by
    have := List.find?_some hfind
    exact beq_iff_eq.mp this
  have hport2 : findPort chunk.data = some p := hport
  have hs2 : handleStartOutput procId chunk s
      = { s with processes := setPortFirst s.processes procId p } := by
    simp [handleStartOutput, hport2, getAll, hfind, hnone]
  have huniq2 : ((setPortFirst s.processes procId p).map ProcInfo.id).Nodup := by
    rw [setPortFirst_ids]
    exact huniq
  have hmem : { info with port := some p } ∈ setPortFirst s.processes procId p :=
    setPortFirst_mem s.processes procId p info hfind
  have hvic : { info with port := some p }
      ∈ (setPortFirst s.processes procId p).filter (fun q => q.port == some p) :=
    List.mem_filter.mpr ⟨hmem, by simp⟩
  refine ⟨?_, ?_, ?_, ?_⟩
  · rw [hs2]
    exact setPortFirst_find s.processes procId p info hfind
  · rw [hs2]
    simp only [killByPort]
    have hne := List.ne_nil_of_mem hvic
    simp [List.isEmpty_iff, hne]
  · rw [hs2]
    simp only [killByPort, findProc]
    rw [List.find?_eq_none]
    intro q hq
    rcases List.mem_filter.mp hq with ⟨hqmem, hqport⟩
    intro hbeq
    have hq2 := setPortFirst_unique_id s.processes procId p huniq info hfind q
      hqmem (beq_iff_eq.mp hbeq)
    rw [hq2] at hqport
    simp at hqport
  · rw [hs2]
    simp only [killByPort]
    apply List.mem_append.mpr
    left
    have := List.mem_map_of_mem (fun q => RegEvent.termAttempt q.id) hvic
    simpa [hidp] using this

/-- Witness for C10 at a concrete registry: the dev-server output chunk
announces localhost:5173, the entry gets port 5173, and `killByPort 5173`
then succeeds. -/
theorem port_detection_witness :
    findProc (handleStartOutput "proc-1" "Local: http://localhost:5173/" regOne)
        "proc-1"
      = some { id := "proc-1", killThrows := true, command := "npm run dev",
               port := some 5173, startedAt := 100 } ∧
    (killByPort 5173
        (handleStartOutput "proc-1" "Local: http://localhost:5173/" regOne)).fst
      = true := by
  have h := port_detection_enables_killByPort regOne "proc-1"
    "Local: http://localhost:5173/" 5173
    { id := "proc-1", killThrows := true, command := "npm run dev",
      port := none, startedAt := 100 }
    (by decide) (by decide) (by decide) rfl
  exact ⟨h.1, h.2.1⟩

end Vibecode
